import Mathlib

/-!
Verification development for the DeepBook expired-order cleanup bot.

The source program reconstructs the live order book of DeepBook pools from
Sui chain state, filters orders past their expiry timestamp, and builds one
batched cleanup transaction together with a simulated rebate estimate.

This file gives a shallow embedding of that program:

* the BCS binary codecs for every struct type registered with
  `bcs.registerStructType` (Order, Table, Field, TickLevel, LinkedTable,
  Node, Leaf, CritbitTree, Pool, PoolCreated), built from the primitive
  codecs of the canonical BCS format (little-endian fixed-width unsigned
  integers, one-byte booleans, fixed 32-byte addresses, ULEB128
  length-prefixed strings and vectors);
* the cursor-pagination loop shared by `retrieveAllPools` and
  `getAllDFPages`;
* the chunked, error-tolerant batch object resolver `getOrders` and the
  `chunks` helper;
* the per-pool reconstruction pipeline `retrieveExpiredOrders` with its
  expiry filter;
* the batch builder `createCleanUpTransaction` with its rebate arithmetic.

Bytes are modelled as `Nat` (in-range means `< 256`), machine integers as
`Nat` with explicit `< 2 ^ w` bounds, JavaScript `undefined` as `Option`,
and thrown exceptions as `Except`.  Network effects are modelled by an
explicit environment `Env` of pure response functions.
-/

/-! ## Primitive BCS codecs -/

/-- ULEB128 encoding worker, structurally recursive on a fuel bound that
dominates the encoded number (so that encodings of concrete numbers
evaluate by reduction). -/
def serULEBAux : Nat → Nat → List Nat
  | 0, n => [n]
  | fuel + 1, n => if n < 128 then [n] else (n % 128 + 128) :: serULEBAux fuel (n / 128)

/-- ULEB128 encoding of a natural number: seven value bits per byte,
high bit set on every byte except the last. -/
def serULEB (n : Nat) : List Nat := serULEBAux n n

/-- ULEB128 decoding: returns the decoded number and the unconsumed tail. -/
def deULEB : List Nat → Option (Nat × List Nat)
  | [] => none
  | b :: rest =>
    if b < 128 then some (b, rest)
    else
      match deULEB rest with
      | some (n, r) => some (b % 128 + 128 * n, r)
      | none => none

/-- Little-endian encoding of `n` into `w` bytes (low byte first). -/
def serUIntLE : Nat → Nat → List Nat
  | 0, _ => []
  | w + 1, n => n % 256 :: serUIntLE w (n / 256)

/-- Little-endian decoding of a `w`-byte unsigned integer. -/
def deUIntLE : Nat → List Nat → Option (Nat × List Nat)
  | 0, bs => some (0, bs)
  | _ + 1, [] => none
  | w + 1, b :: bs =>
    match deUIntLE w bs with
    | some (n, r) => some (b + 256 * n, r)
    | none => none

/-- A `u64` is eight little-endian bytes. -/
def serU64 (n : Nat) : List Nat := serUIntLE 8 n

def deU64 (bs : List Nat) : Option (Nat × List Nat) := deUIntLE 8 bs

/-- A `u8` is one byte. -/
def serU8 (n : Nat) : List Nat := serUIntLE 1 n

def deU8 (bs : List Nat) : Option (Nat × List Nat) := deUIntLE 1 bs

/-- A `bool` is one byte: `0` for false, `1` for true. -/
def serBool (b : Bool) : List Nat := [if b then 1 else 0]

def deBool : List Nat → Option (Bool × List Nat)
  | [] => none
  | b :: bs => if b = 0 then some (false, bs) else if b = 1 then some (true, bs) else none

/-- An `address` is exactly 32 raw bytes, no length prefix. -/
def serAddress (a : List Nat) : List Nat := a

def deAddress (bs : List Nat) : Option (List Nat × List Nat) :=
  if 32 ≤ bs.length then some (bs.take 32, bs.drop 32) else none

/-- Well-formed address value: 32 in-range bytes. -/
def wfAddress (a : List Nat) : Prop := a.length = 32 ∧ ∀ b ∈ a, b < 256

/-- A `string` is a ULEB128 byte count followed by that many UTF-8 bytes;
strings are modelled as their byte lists. -/
def serStr (s : List Nat) : List Nat := serULEB s.length ++ s

def deStr (bs : List Nat) : Option (List Nat × List Nat) :=
  match deULEB bs with
  | some (n, r) => if n ≤ r.length then some (r.take n, r.drop n) else none
  | none => none

/-- Well-formed string value: in-range bytes. -/
def wfStr (s : List Nat) : Prop := ∀ b ∈ s, b < 256

/-- A `vector<T>` is a ULEB128 element count followed by the encoded
elements in order. -/
def serVec (ser : α → List Nat) (xs : List α) : List Nat :=
  serULEB xs.length ++ (xs.map ser).flatten

/-- Decode exactly `k` consecutive elements. -/
def deCount (de : List Nat → Option (α × List Nat)) : Nat → List Nat → Option (List α × List Nat)
  | 0, bs => some ([], bs)
  | k + 1, bs =>
    match de bs with
    | some (a, r) =>
      match deCount de k r with
      | some (as, r2) => some (a :: as, r2)
      | none => none
    | none => none

def deVec (de : List Nat → Option (α × List Nat)) (bs : List Nat) :
    Option (List α × List Nat) :=
  match deULEB bs with
  | some (n, r) => deCount de n r
  | none => none

/-- `vector<u64>` as used for the optional head/tail/prev/next pointers. -/
def serVecU64 (xs : List Nat) : List Nat := serVec serU64 xs

def deVecU64 (bs : List Nat) : Option (List Nat × List Nat) := deVec deU64 bs

/-- Well-formed `vector<u64>` value: every element fits in 64 bits. -/
def wfVecU64 (xs : List Nat) : Prop := ∀ x ∈ xs, x < 2 ^ 64

/-! ## Registered struct schemas

Each structure and codec below mirrors one `bcs.registerStructType` call of
the source, with the same field names in the same declared order. -/

structure Order where
  order_id : Nat
  client_order_id : Nat
  price : Nat
  original_quantity : Nat
  quantity : Nat
  is_bid : Bool
  owner : List Nat
  expire_timestamp : Nat
  self_matching_prevention : Nat
deriving Repr, DecidableEq

structure Table where
  id : List Nat
  size : Nat
deriving Repr, DecidableEq

structure BcsField (K V : Type) where
  id : List Nat
  name : K
  value : V
deriving Repr, DecidableEq

structure LinkedTable where
  id : List Nat
  size : Nat
  head : List Nat
  tail : List Nat
deriving Repr, DecidableEq

structure TickLevel where
  price : Nat
  open_orders : LinkedTable
deriving Repr, DecidableEq

structure Node (V : Type) where
  prev : List Nat
  next : List Nat
  value : V
deriving Repr, DecidableEq

structure Leaf (V : Type) where
  key : Nat
  value : V
  parent : Nat
deriving Repr, DecidableEq

structure CritbitTree where
  root : Nat
  internal_nodes : Table
  leaves : Table
  min_leaf : Nat
  max_leaf : Nat
  next_internal_node_index : Nat
  next_leaf_index : Nat
deriving Repr, DecidableEq

structure Pool where
  id : List Nat
  bids : CritbitTree
  asks : CritbitTree
  next_bid_order_id : Nat
  next_ask_order_id : Nat
  usr_open_orders : Table
  taker_fee_rate : Nat
  maker_rebate_rate : Nat
  tick_size : Nat
  lot_size : Nat
deriving Repr, DecidableEq

structure PoolCreated where
  pool_id : List Nat
  base_asset : List Nat
  quote_asset : List Nat
deriving Repr, DecidableEq

/-! ## Struct codecs -/

def serOrder (o : Order) : List Nat :=
  serU64 o.order_id ++ serU64 o.client_order_id ++ serU64 o.price ++
    serU64 o.original_quantity ++ serU64 o.quantity ++ serBool o.is_bid ++
    serAddress o.owner ++ serU64 o.expire_timestamp ++ serU8 o.self_matching_prevention

def deOrder (bs : List Nat) : Option (Order × List Nat) :=
  match deU64 bs with
  | none => none
  | some (order_id, bs) =>
  match deU64 bs with
  | none => none
  | some (client_order_id, bs) =>
  match deU64 bs with
  | none => none
  | some (price, bs) =>
  match deU64 bs with
  | none => none
  | some (original_quantity, bs) =>
  match deU64 bs with
  | none => none
  | some (quantity, bs) =>
  match deBool bs with
  | none => none
  | some (is_bid, bs) =>
  match deAddress bs with
  | none => none
  | some (owner, bs) =>
  match deU64 bs with
  | none => none
  | some (expire_timestamp, bs) =>
  match deU8 bs with
  | none => none
  | some (self_matching_prevention, bs) =>
    some (⟨order_id, client_order_id, price, original_quantity, quantity,
      is_bid, owner, expire_timestamp, self_matching_prevention⟩, bs)

def wfOrder (o : Order) : Prop :=
  o.order_id < 2 ^ 64 ∧ o.client_order_id < 2 ^ 64 ∧ o.price < 2 ^ 64 ∧
    o.original_quantity < 2 ^ 64 ∧ o.quantity < 2 ^ 64 ∧ wfAddress o.owner ∧
    o.expire_timestamp < 2 ^ 64 ∧ o.self_matching_prevention < 2 ^ 8

def serTable (t : Table) : List Nat := serAddress t.id ++ serU64 t.size

def deTable (bs : List Nat) : Option (Table × List Nat) :=
  match deAddress bs with
  | none => none
  | some (id, bs) =>
  match deU64 bs with
  | none => none
  | some (size, bs) => some (⟨id, size⟩, bs)

def wfTable (t : Table) : Prop := wfAddress t.id ∧ t.size < 2 ^ 64

def serField (serK : K → List Nat) (serV : V → List Nat) (f : BcsField K V) : List Nat :=
  serAddress f.id ++ serK f.name ++ serV f.value

def deField (deK : List Nat → Option (K × List Nat)) (deV : List Nat → Option (V × List Nat))
    (bs : List Nat) : Option (BcsField K V × List Nat) :=
  match deAddress bs with
  | none => none
  | some (id, bs) =>
  match deK bs with
  | none => none
  | some (name, bs) =>
  match deV bs with
  | none => none
  | some (value, bs) => some (⟨id, name, value⟩, bs)

def wfField (wfK : K → Prop) (wfV : V → Prop) (f : BcsField K V) : Prop :=
  wfAddress f.id ∧ wfK f.name ∧ wfV f.value

def serLinkedTable (t : LinkedTable) : List Nat :=
  serAddress t.id ++ serU64 t.size ++ serVecU64 t.head ++ serVecU64 t.tail

def deLinkedTable (bs : List Nat) : Option (LinkedTable × List Nat) :=
  match deAddress bs with
  | none => none
  | some (id, bs) =>
  match deU64 bs with
  | none => none
  | some (size, bs) =>
  match deVecU64 bs with
  | none => none
  | some (head, bs) =>
  match deVecU64 bs with
  | none => none
  | some (tail, bs) => some (⟨id, size, head, tail⟩, bs)

def wfLinkedTable (t : LinkedTable) : Prop :=
  wfAddress t.id ∧ t.size < 2 ^ 64 ∧ wfVecU64 t.head ∧ wfVecU64 t.tail

def serTickLevel (t : TickLevel) : List Nat :=
  serU64 t.price ++ serLinkedTable t.open_orders

def deTickLevel (bs : List Nat) : Option (TickLevel × List Nat) :=
  match deU64 bs with
  | none => none
  | some (price, bs) =>
  match deLinkedTable bs with
  | none => none
  | some (open_orders, bs) => some (⟨price, open_orders⟩, bs)

def wfTickLevel (t : TickLevel) : Prop :=
  t.price < 2 ^ 64 ∧ wfLinkedTable t.open_orders

def serNode (serV : V → List Nat) (n : Node V) : List Nat :=
  serVecU64 n.prev ++ serVecU64 n.next ++ serV n.value

def deNode (deV : List Nat → Option (V × List Nat)) (bs : List Nat) :
    Option (Node V × List Nat) :=
  match deVecU64 bs with
  | none => none
  | some (prev, bs) =>
  match deVecU64 bs with
  | none => none
  | some (next, bs) =>
  match deV bs with
  | none => none
  | some (value, bs) => some (⟨prev, next, value⟩, bs)

def wfNode (wfV : V → Prop) (n : Node V) : Prop :=
  wfVecU64 n.prev ∧ wfVecU64 n.next ∧ wfV n.value

def serLeaf (serV : V → List Nat) (l : Leaf V) : List Nat :=
  serU64 l.key ++ serV l.value ++ serU64 l.parent

def deLeaf (deV : List Nat → Option (V × List Nat)) (bs : List Nat) :
    Option (Leaf V × List Nat) :=
  match deU64 bs with
  | none => none
  | some (key, bs) =>
  match deV bs with
  | none => none
  | some (value, bs) =>
  match deU64 bs with
  | none => none
  | some (parent, bs) => some (⟨key, value, parent⟩, bs)

def wfLeaf (wfV : V → Prop) (l : Leaf V) : Prop :=
  l.key < 2 ^ 64 ∧ wfV l.value ∧ l.parent < 2 ^ 64

def serCritbitTree (t : CritbitTree) : List Nat :=
  serU64 t.root ++ serTable t.internal_nodes ++ serTable t.leaves ++
    serU64 t.min_leaf ++ serU64 t.max_leaf ++ serU64 t.next_internal_node_index ++
    serU64 t.next_leaf_index

def deCritbitTree (bs : List Nat) : Option (CritbitTree × List Nat) :=
  match deU64 bs with
  | none => none
  | some (root, bs) =>
  match deTable bs with
  | none => none
  | some (internal_nodes, bs) =>
  match deTable bs with
  | none => none
  | some (leaves, bs) =>
  match deU64 bs with
  | none => none
  | some (min_leaf, bs) =>
  match deU64 bs with
  | none => none
  | some (max_leaf, bs) =>
  match deU64 bs with
  | none => none
  | some (next_internal_node_index, bs) =>
  match deU64 bs with
  | none => none
  | some (next_leaf_index, bs) =>
    some (⟨root, internal_nodes, leaves, min_leaf, max_leaf,
      next_internal_node_index, next_leaf_index⟩, bs)

def wfCritbitTree (t : CritbitTree) : Prop :=
  t.root < 2 ^ 64 ∧ wfTable t.internal_nodes ∧ wfTable t.leaves ∧
    t.min_leaf < 2 ^ 64 ∧ t.max_leaf < 2 ^ 64 ∧
    t.next_internal_node_index < 2 ^ 64 ∧ t.next_leaf_index < 2 ^ 64

def serPool (p : Pool) : List Nat :=
  serAddress p.id ++ serCritbitTree p.bids ++ serCritbitTree p.asks ++
    serU64 p.next_bid_order_id ++ serU64 p.next_ask_order_id ++
    serTable p.usr_open_orders ++ serU64 p.taker_fee_rate ++
    serU64 p.maker_rebate_rate ++ serU64 p.tick_size ++ serU64 p.lot_size

def dePool (bs : List Nat) : Option (Pool × List Nat) :=
  match deAddress bs with
  | none => none
  | some (id, bs) =>
  match deCritbitTree bs with
  | none => none
  | some (bids, bs) =>
  match deCritbitTree bs with
  | none => none
  | some (asks, bs) =>
  match deU64 bs with
  | none => none
  | some (next_bid_order_id, bs) =>
  match deU64 bs with
  | none => none
  | some (next_ask_order_id, bs) =>
  match deTable bs with
  | none => none
  | some (usr_open_orders, bs) =>
  match deU64 bs with
  | none => none
  | some (taker_fee_rate, bs) =>
  match deU64 bs with
  | none => none
  | some (maker_rebate_rate, bs) =>
  match deU64 bs with
  | none => none
  | some (tick_size, bs) =>
  match deU64 bs with
  | none => none
  | some (lot_size, bs) =>
    some (⟨id, bids, asks, next_bid_order_id, next_ask_order_id,
      usr_open_orders, taker_fee_rate, maker_rebate_rate, tick_size, lot_size⟩, bs)

def wfPool (p : Pool) : Prop :=
  wfAddress p.id ∧ wfCritbitTree p.bids ∧ wfCritbitTree p.asks ∧
    p.next_bid_order_id < 2 ^ 64 ∧ p.next_ask_order_id < 2 ^ 64 ∧
    wfTable p.usr_open_orders ∧ p.taker_fee_rate < 2 ^ 64 ∧
    p.maker_rebate_rate < 2 ^ 64 ∧ p.tick_size < 2 ^ 64 ∧ p.lot_size < 2 ^ 64

def serPoolCreated (p : PoolCreated) : List Nat :=
  serAddress p.pool_id ++ serStr p.base_asset ++ serStr p.quote_asset

def dePoolCreated (bs : List Nat) : Option (PoolCreated × List Nat) :=
  match deAddress bs with
  | none => none
  | some (pool_id, bs) =>
  match deStr bs with
  | none => none
  | some (base_asset, bs) =>
  match deStr bs with
  | none => none
  | some (quote_asset, bs) => some (⟨pool_id, base_asset, quote_asset⟩, bs)

def wfPoolCreated (p : PoolCreated) : Prop :=
  wfAddress p.pool_id ∧ wfStr p.base_asset ∧ wfStr p.quote_asset

/-! ## Struct codec round trips -/

/-! ## Remote interface model

Network reads are modelled by an explicit environment of pure response
functions; `undefined` fields are `Option`, thrown errors are `Except`. -/

/-- Outcome of `getObject` / one entry of `multiGetObjects`: either an error
marker (the object was deleted), or a payload whose `dataType` is the
`moveObject` variant carrying BCS bytes, or a payload of a different
`dataType` (a package). -/
inductive ObjectResponse where
  | error
  | moveObject (bcsBytes : List Nat)
  | nonMoveObject (bcsBytes : List Nat)
deriving Repr, DecidableEq

/-- Errors thrown while running the pipeline: a BCS decode failure thrown
by `bcs.de`, the explicit `throw new Error` with message
`Invalid pool data type`, or the TypeError the runtime throws when
`poolData.dataType` is read off the undefined payload of a
not-found/errored `getObject` response. -/
inductive RunErr where
  | decodeError
  | invalidPoolData
  | typeError
deriving Repr, DecidableEq

/-- One page of a cursor-paginated response: an item batch plus the
`hasNextPage` flag (the opaque `nextCursor` is modelled by the position of
the following page in the response sequence). -/
structure Page (α : Type) where
  data : List α
  hasNextPage : Bool
deriving Repr, DecidableEq

/-- One entry of a `getDynamicFields` page; its `objectId` may be absent
(`undefined` in the source). -/
structure DFEntry where
  objectId : Option String
deriving Repr, DecidableEq

/-- One event returned by `queryEvents`, carrying a binary payload (the
source's base58 transport decoding is folded into the byte list). -/
structure EventRecord where
  bcs : List Nat
deriving Repr, DecidableEq

/-- Gas cost summary of a dry-run simulation (`result.effects.gasUsed`
after `parseInt`). -/
structure CostSummary where
  storageRebate : Int
  storageCost : Int
  computationCost : Int
deriving Repr, DecidableEq

/-- One `tx.moveCall` instruction of the cleanup batch, with the argument
list of the source call in order: the pool object, the shared clock object
`0x6`, the vector of expired order ids, the parallel vector of their
owners; plus the two type arguments. -/
structure MoveCallInstr where
  target : String
  poolObj : List Nat
  clockObj : String
  orderIds : List Nat
  orderOwners : List (List Nat)
  typeArguments : List (List Nat)
deriving Repr, DecidableEq

/-- Pure model of the remote ledger endpoints used by the program. -/
structure Env where
  getObject : List Nat → ObjectResponse
  getObj : Option String → ObjectResponse
  dfPages : List Nat → List (Page DFEntry)
  eventPages : List (Page EventRecord)
  devInspect : List MoveCallInstr → CostSummary
  now : Nat

/-- Contract of `multiGetObjects`: one outcome per requested id. -/
def multiGetObjects (env : Env) (ids : List (Option String)) : List ObjectResponse :=
  ids.map env.getObj

/-- Sequential mapping over a list in the `Except` monad, written out
explicitly: the first error aborts the whole traversal, as an uncaught
thrown error does in the source's sequential awaits. -/
def exceptMapList (f : α → Except ε β) : List α → Except ε (List β)
  | [] => Except.ok []
  | x :: xs =>
    match f x with
    | Except.error e => Except.error e
    | Except.ok y =>
      match exceptMapList f xs with
      | Except.error e => Except.error e
      | Except.ok ys => Except.ok (y :: ys)

/-! ## Pagination -/

/-- Cursor-pagination loop shared verbatim by `retrieveAllPools` and
`getAllDFPages`: take the initial response, and while the current response
has `hasNextPage` set, consume the follow-up response (requested with the
prior response's cursor), concatenating the item batches in response
order.  The argument lists the backing source's responses in request
order, the first element being the response to the initial request. -/
def fetchAllPages : List (Page α) → List α
  | [] => []
  | p :: ps => p.data ++ (if p.hasNextPage then fetchAllPages ps else [])

/-- Number of requests the pagination loop issues against the same backing
source: one initial request plus one follow-up per iteration of the
`while hasNextPage` loop. -/
def fetchRequests : List (Page α) → Nat
  | [] => 0
  | p :: ps => 1 + (if p.hasNextPage then fetchRequests ps else 0)

/-- Helper to retrieve all pages of dynamic fields: the pagination loop over
`getDynamicFields parentId`, then `data.filter(node => node.objectId !== undefined)`. -/
def getAllDFPages (env : Env) (parentId : List Nat) : List DFEntry :=
  (fetchAllPages (env.dfPages parentId)).filter (fun node => node.objectId.isSome)

/-- Retrieve all DeepBook pools: paginate the `PoolCreated` event query and
decode each event payload as a `PoolCreated` record. -/
def retrieveAllPools (env : Env) : Except RunErr (List PoolCreated) :=
  exceptMapList
    (fun event =>
      match dePoolCreated event.bcs with
      | some (p, _) => Except.ok p
      | none => Except.error RunErr.decodeError)
    (fetchAllPages env.eventPages)

/-! ## Chunked batch resolution -/

/-- Helper function to split an array into chunks:
`Array.from(new Array(Math.ceil(data.length / size)), (_, i) => data.slice(i * size, i * size + size))`. -/
def chunks (data : List α) (size : Nat) : List (List α) :=
  (List.range ((data.length + size - 1) / size)).map
    (fun i => (data.drop (i * size)).take size)

/-- Per-response handling inside `getOrders`: an errored response is
ignored (the object was deleted during the query), a `moveObject` payload
is decoded as `Field<u64, Node<Order>>` and projected to `.value.value`,
and any other payload variant falls through the `switch` to `undefined`.
A decode failure is a thrown error. -/
def processOrderResponse (resp : ObjectResponse) : Except RunErr (Option Order) :=
  match resp with
  | ObjectResponse.error => Except.ok none
  | ObjectResponse.moveObject bcsBytes =>
    match deField deU64 (deNode deOrder) bcsBytes with
    | some (f, _) => Except.ok (some f.value.value)
    | none => Except.error RunErr.decodeError
  | ObjectResponse.nonMoveObject _ => Except.ok none

/-- Batch object resolver: split the ids into chunks of 50, issue one
`multiGetObjects` call per chunk, process every response, concatenate the
per-chunk results and drop the `undefined` entries. -/
def getOrders (env : Env) (ids : List (Option String)) : Except RunErr (List Order) :=
  match exceptMapList
      (fun chunk => exceptMapList processOrderResponse (multiGetObjects env chunk))
      (chunks ids 50) with
  | Except.error e => Except.error e
  | Except.ok result => Except.ok (result.flatten.filterMap id)

/-! ## Per-pool reconstruction -/

/-- Per-response handling inside the tick-level resolution loop of
`retrieveExpiredOrders`: same shape as `processOrderResponse` but decoding
`Field<u64, Leaf<TickLevel>>` and projecting to `.value.value`. -/
def processTickResponse (resp : ObjectResponse) : Except RunErr (Option TickLevel) :=
  match resp with
  | ObjectResponse.error => Except.ok none
  | ObjectResponse.moveObject bcsBytes =>
    match deField deU64 (deLeaf deTickLevel) bcsBytes with
    | some (f, _) => Except.ok (some f.value.value)
    | none => Except.error RunErr.decodeError
  | ObjectResponse.nonMoveObject _ => Except.ok none

/-- Expiry predicate applied to each reconstructed order:
`order.expire_timestamp <= Date.now()`. -/
def isExpired (order : Order) (now : Nat) : Bool :=
  decide (order.expire_timestamp ≤ now)

/-- Steps 2-5 of the per-pool reconstruction, starting from the decoded
pool record: enumerate the leaf entries of both sides, resolve them in
chunks of 50 as wrapped tick levels, drop the vanished ones, enumerate
every tick level's order queue, flatten the order ids and resolve them
through `getOrders`. -/
def reconstructPoolOrders (env : Env) (pool : Pool) : Except RunErr (List Order) :=
  let asks := getAllDFPages env pool.asks.leaves.id
  let bids := getAllDFPages env pool.bids.leaves.id
  let ids := (bids ++ asks).map DFEntry.objectId
  match exceptMapList
      (fun chunk => exceptMapList processTickResponse (multiGetObjects env chunk))
      (chunks ids 50) with
  | Except.error e => Except.error e
  | Except.ok tickChunks =>
    let tickLevels := tickChunks.flatten
    let orderIds :=
      ((tickLevels.filterMap id).map
        (fun tickLevel =>
          (getAllDFPages env tickLevel.open_orders.id).map DFEntry.objectId)).flatten
    getOrders env orderIds

/-- Retrieve the expired orders of one pool: fetch the pool object; on a
not-found/errored response `pool.data` is undefined and reading
`poolData.dataType` throws a TypeError before the data-type switch is
reached; on a fetched payload whose `dataType` is not `moveObject` the
switch falls through to `throw new Error` with `Invalid pool data type`;
on the `moveObject` variant, decode the payload as a `Pool`, reconstruct
its live order set, and keep the orders whose expiry timestamp has
passed. -/
def retrieveExpiredOrders (env : Env) (poolId : List Nat) : Except RunErr (List Order) :=
  match env.getObject poolId with
  | ObjectResponse.error => Except.error RunErr.typeError
  | ObjectResponse.moveObject bcsBytes =>
    match dePool bcsBytes with
    | none => Except.error RunErr.decodeError
    | some (pool, _) =>
      match reconstructPoolOrders env pool with
      | Except.error e => Except.error e
      | Except.ok orders =>
        Except.ok (orders.filter (fun order => isExpired order env.now))
  | ObjectResponse.nonMoveObject _ => Except.error RunErr.invalidPoolData

/-! ## Cleanup batch builder -/

/-- Build the cleanup batch: for each (pool, expired orders) pair append
one `clean_up_expired_orders` move call carrying the pool object, the
clock object `0x6`, the vector of expired order ids, the parallel vector
of their owners, and the pool's base/quote type arguments; then dry-run
the batch to obtain a cost summary and compute
`rebate = storageRebate - storageCost - computationCost`.  Returns the
pair `(rebate, tx)`. -/
def createCleanUpTransaction (env : Env)
    (poolOrders : List (PoolCreated × List Order)) : Int × List MoveCallInstr :=
  let tx := poolOrders.map (fun poolOrder =>
    { target := "0xdee9::clob_v2::clean_up_expired_orders"
      poolObj := poolOrder.1.pool_id
      clockObj := "0x6"
      orderIds := poolOrder.2.map Order.order_id
      orderOwners := poolOrder.2.map Order.owner
      typeArguments := [poolOrder.1.base_asset, poolOrder.1.quote_asset] : MoveCallInstr })
  let costSummary := env.devInspect tx
  let rebate := costSummary.storageRebate - costSummary.storageCost -
    costSummary.computationCost
  (rebate, tx)

/-! ## Response classification helpers and sample values -/

/-- Whether a `multiGetObjects` response would decode without a thrown
error inside `getOrders`: errored and non-move responses are fine (they
are skipped), a `moveObject` payload must parse as `Field<u64, Node<Order>>`. -/
def respDecodes (resp : ObjectResponse) : Bool :=
  match resp with
  | ObjectResponse.moveObject bcsBytes => (deField deU64 (deNode deOrder) bcsBytes).isSome
  | _ => true

/-- The order value contributed by one `multiGetObjects` response:
`none` for an errored, non-move, or undecodable response, otherwise the
`.value.value` projection of the decoded wrapper. -/
def respOrder (resp : ObjectResponse) : Option Order :=
  match resp with
  | ObjectResponse.moveObject bcsBytes =>
    match deField deU64 (deNode deOrder) bcsBytes with
    | some (f, _) => some f.value.value
    | none => none
  | _ => none

/-- Sample order used by concrete witnesses. -/
def oSample : Order :=
  ⟨1, 2, 3, 4, 5, true, List.replicate 32 7, 6, 0⟩

/-- Second sample order used by concrete witnesses. -/
def oSample2 : Order :=
  ⟨9, 8, 7, 6, 5, false, List.replicate 32 4, 3, 1⟩

/-- Sample pool-creation event record used by concrete witnesses. -/
def pcSample : PoolCreated :=
  ⟨List.replicate 32 2, [65], [66]⟩

/-- Sample empty table. -/
def tSample : Table := ⟨List.replicate 32 0, 0⟩

/-- Sample empty critbit tree. -/
def cbSample : CritbitTree := ⟨0, tSample, tSample, 0, 0, 0, 0⟩

/-- Sample pool with empty sides. -/
def poolSample : Pool :=
  ⟨List.replicate 32 0, cbSample, cbSample, 0, 0, tSample, 0, 0, 0, 0⟩

/-- Environment where every endpoint returns an empty or errored answer. -/
def envEmpty : Env :=
  ⟨fun _ => ObjectResponse.error, fun _ => ObjectResponse.error,
    fun _ => [], [], fun _ => ⟨0, 0, 0⟩, 0⟩

/-- Environment whose dry-run simulation reports the cost summary of the
spec example. -/
def envRebate : Env := { envEmpty with devInspect := fun _ => ⟨300, 100, 50⟩ }

/-- Environment whose dynamic-field listing returns one page holding one
entry with an id and one entry without. -/
def envDF : Env :=
  { envEmpty with dfPages := fun _ => [⟨[⟨some "x"⟩, ⟨none⟩], false⟩] }

/-- Environment whose `getObject` always answers with the sample pool as a
move object. -/
def envPool : Env :=
  { envEmpty with getObject := fun _ => ObjectResponse.moveObject (serPool poolSample) }

/-- Per-id lookup answering: id `b` errors (deleted), id `a` resolves to a
wrapped `oSample`, anything else to a wrapped `oSample2`. -/
def getObjSample (i : Option String) : ObjectResponse :=
  if i = some "b" then ObjectResponse.error
  else if i = some "a" then
    ObjectResponse.moveObject
      (serField serU64 (serNode serOrder) ⟨List.replicate 32 0, 0, ⟨[], [], oSample⟩⟩)
  else
    ObjectResponse.moveObject
      (serField serU64 (serNode serOrder) ⟨List.replicate 32 0, 1, ⟨[], [], oSample2⟩⟩)

/-- Environment whose per-id lookups follow `getObjSample`. -/
def envOrders : Env := { envEmpty with getObj := getObjSample }


/-- Decidable equality of `Except` results, for concrete witness
evaluation. -/
instance instDecEqExcept {eps alpha : Type} [DecidableEq eps] [DecidableEq alpha] :
    DecidableEq (Except eps alpha) := fun x y =>
  match x, y with
  | Except.error a, Except.error b =>
    match decEq a b with
    | isTrue h => isTrue (by rw [h])
    | isFalse h => isFalse (by intro hc; injection hc with h2; exact h h2)
  | Except.error _, Except.ok _ => isFalse (by intro hc; exact Except.noConfusion hc)
  | Except.ok _, Except.error _ => isFalse (by intro hc; exact Except.noConfusion hc)
  | Except.ok a, Except.ok b =>
    match decEq a b with
    | isTrue h => isTrue (by rw [h])
    | isFalse h => isFalse (by intro hc; injection hc with h2; exact h h2)

/-- Decidability of the well-formedness predicates, for concrete witness
evaluation. -/
instance instDecWfAddress (a : List Nat) : Decidable (wfAddress a) := by
  unfold wfAddress; infer_instance

instance instDecWfStr (s : List Nat) : Decidable (wfStr s) := by
  unfold wfStr; infer_instance

instance instDecWfVecU64 (xs : List Nat) : Decidable (wfVecU64 xs) := by
  unfold wfVecU64; infer_instance

instance instDecWfOrder (o : Order) : Decidable (wfOrder o) := by
  unfold wfOrder; infer_instance

instance instDecWfTable (t : Table) : Decidable (wfTable t) := by
  unfold wfTable; infer_instance

instance instDecWfLinkedTable (t : LinkedTable) : Decidable (wfLinkedTable t) := by
  unfold wfLinkedTable; infer_instance

instance instDecWfTickLevel (t : TickLevel) : Decidable (wfTickLevel t) := by
  unfold wfTickLevel; infer_instance

instance instDecWfCritbitTree (t : CritbitTree) : Decidable (wfCritbitTree t) := by
  unfold wfCritbitTree; infer_instance

instance instDecWfPool (p : Pool) : Decidable (wfPool p) := by
  unfold wfPool; infer_instance

instance instDecWfPoolCreated (p : PoolCreated) : Decidable (wfPoolCreated p) := by
  unfold wfPoolCreated; infer_instance

/-! ## Round-trip helper lemmas -/

theorem deULEB_serULEBAux : ∀ (fuel n : Nat), n ≤ fuel → ∀ rest : List Nat,
    deULEB (serULEBAux fuel n ++ rest) = some (n, rest) := by
  intro fuel
  induction fuel with
  | zero =>
    intro n hn rest
    interval_cases n
    simp [serULEBAux, deULEB]
  | succ fuel ih =>
    intro n hn rest
    rw [serULEBAux]
    by_cases h : n < 128
    · simp [h, deULEB]
    · rw [if_neg h, List.cons_append, deULEB, if_neg (by omega)]
      rw [ih (n / 128) (by omega) rest]
      simp only [Option.some.injEq, Prod.mk.injEq]
      exact ⟨by omega, trivial⟩

theorem deULEB_serULEB (n : Nat) : ∀ rest : List Nat,
    deULEB (serULEB n ++ rest) = some (n, rest) :=
  deULEB_serULEBAux n n (Nat.le_refl n)
theorem deUIntLE_serUIntLE (w : Nat) : ∀ (n : Nat) (rest : List Nat),
    n < 256 ^ w → deUIntLE w (serUIntLE w n ++ rest) = some (n, rest) := by
  induction w with
  | zero =>
    intro n rest h
    interval_cases n
    simp [serUIntLE, deUIntLE]
  | succ w ih =>
    intro n rest h
    have hdiv : n / 256 < 256 ^ w := by
      rw [Nat.div_lt_iff_lt_mul (by omega)]
      calc n < 256 ^ (w + 1) := h
        _ = 256 ^ w * 256 := by ring
    rw [serUIntLE, List.cons_append, deUIntLE, ih (n / 256) rest hdiv]
    simp only [Option.some.injEq, Prod.mk.injEq]
    exact ⟨by omega, trivial⟩
theorem deU64_serU64 (n : Nat) (rest : List Nat) (h : n < 2 ^ 64) :
    deU64 (serU64 n ++ rest) = some (n, rest) :=
  deUIntLE_serUIntLE 8 n rest (by norm_num at h ⊢; omega)
theorem deU8_serU8 (n : Nat) (rest : List Nat) (h : n < 2 ^ 8) :
    deU8 (serU8 n ++ rest) = some (n, rest) :=
  deUIntLE_serUIntLE 1 n rest (by norm_num at h ⊢; omega)
theorem deBool_serBool (b : Bool) (rest : List Nat) :
    deBool (serBool b ++ rest) = some (b, rest) := by
  cases b <;> simp [serBool, deBool]
theorem deAddress_serAddress (a : List Nat) (rest : List Nat) (h : a.length = 32) :
    deAddress (serAddress a ++ rest) = some (a, rest) := by
  have hle : 32 ≤ (a ++ rest).length := by simp [h]
  rw [serAddress, deAddress, if_pos hle]
  rw [← h, List.take_left, List.drop_left]
theorem deStr_serStr (s : List Nat) (rest : List Nat) :
    deStr (serStr s ++ rest) = some (s, rest) := by
  have hle : s.length ≤ (s ++ rest).length := by simp
  rw [serStr, deStr, List.append_assoc, deULEB_serULEB]
  simp only [hle, if_true, List.take_left, List.drop_left]
theorem deCount_elems (de : List Nat → Option (α × List Nat)) (ser : α → List Nat)
    (wf : α → Prop)
    (hrt : ∀ (a : α) (r : List Nat), wf a → de (ser a ++ r) = some (a, r)) :
    ∀ (xs : List α) (rest : List Nat), (∀ x ∈ xs, wf x) →
      deCount de xs.length ((xs.map ser).flatten ++ rest) = some (xs, rest) := by
  intro xs
  induction xs with
  | nil => intro rest _; simp [deCount]
  | cons x xs ih =>
    intro rest hwf
    rw [List.length_cons, List.map_cons, List.flatten_cons, List.append_assoc]
    rw [deCount, hrt x _ (hwf x (by simp))]
    simp only [ih rest (fun y hy => hwf y (by simp [hy]))]
theorem deVec_serVec (de : List Nat → Option (α × List Nat)) (ser : α → List Nat)
    (wf : α → Prop)
    (hrt : ∀ (a : α) (r : List Nat), wf a → de (ser a ++ r) = some (a, r))
    (xs : List α) (rest : List Nat) (hwf : ∀ x ∈ xs, wf x) :
    deVec de (serVec ser xs ++ rest) = some (xs, rest) := by
  rw [serVec, deVec, List.append_assoc, deULEB_serULEB]
  exact deCount_elems de ser wf hrt xs rest hwf
theorem deVecU64_serVecU64 (xs : List Nat) (rest : List Nat) (hwf : wfVecU64 xs) :
    deVecU64 (serVecU64 xs ++ rest) = some (xs, rest) :=
  deVec_serVec deU64 serU64 (fun n => n < 2 ^ 64)
    (fun a r h => deU64_serU64 a r h) xs rest hwf
theorem deTable_serTable (t : Table) (rest : List Nat) (h : wfTable t) :
    deTable (serTable t ++ rest) = some (t, rest) := by
  obtain ⟨⟨h1, _⟩, h2⟩ := h
  simp only [serTable, List.append_assoc, deTable, deAddress_serAddress, deU64_serU64, h1, h2]
theorem deOrder_serOrder (o : Order) (rest : List Nat) (h : wfOrder o) :
    deOrder (serOrder o ++ rest) = some (o, rest) := by
  obtain ⟨h1, h2, h3, h4, h5, ⟨h6, _⟩, h7, h8⟩ := h
  simp only [serOrder, List.append_assoc, deOrder, deU64_serU64, deBool_serBool,
    deAddress_serAddress, deU8_serU8, h1, h2, h3, h4, h5, h6, h7, h8]
theorem deField_serField {K V : Type}
    (deK : List Nat → Option (K × List Nat)) (serK : K → List Nat) (wfK : K → Prop)
    (deV : List Nat → Option (V × List Nat)) (serV : V → List Nat) (wfV : V → Prop)
    (hK : ∀ (a : K) (r : List Nat), wfK a → deK (serK a ++ r) = some (a, r))
    (hV : ∀ (a : V) (r : List Nat), wfV a → deV (serV a ++ r) = some (a, r))
    (f : BcsField K V) (rest : List Nat) (h : wfField wfK wfV f) :
    deField deK deV (serField serK serV f ++ rest) = some (f, rest) := by
  obtain ⟨⟨h1, _⟩, h2, h3⟩ := h
  simp only [serField, List.append_assoc, deField, deAddress_serAddress, hK, hV, h1, h2, h3]
theorem deLinkedTable_serLinkedTable (t : LinkedTable) (rest : List Nat)
    (h : wfLinkedTable t) :
    deLinkedTable (serLinkedTable t ++ rest) = some (t, rest) := by
  obtain ⟨⟨h1, _⟩, h2, h3, h4⟩ := h
  simp only [serLinkedTable, List.append_assoc, deLinkedTable, deAddress_serAddress,
    deU64_serU64, deVecU64_serVecU64, h1, h2, h3, h4]
theorem deTickLevel_serTickLevel (t : TickLevel) (rest : List Nat) (h : wfTickLevel t) :
    deTickLevel (serTickLevel t ++ rest) = some (t, rest) := by
  obtain ⟨h1, h2⟩ := h
  simp only [serTickLevel, List.append_assoc, deTickLevel, deU64_serU64,
    deLinkedTable_serLinkedTable, h1, h2]
theorem deNode_serNode {V : Type}
    (deV : List Nat → Option (V × List Nat)) (serV : V → List Nat) (wfV : V → Prop)
    (hV : ∀ (a : V) (r : List Nat), wfV a → deV (serV a ++ r) = some (a, r))
    (n : Node V) (rest : List Nat) (h : wfNode wfV n) :
    deNode deV (serNode serV n ++ rest) = some (n, rest) := by
  obtain ⟨h1, h2, h3⟩ := h
  simp only [serNode, List.append_assoc, deNode, deVecU64_serVecU64, hV, h1, h2, h3]
theorem deLeaf_serLeaf {V : Type}
    (deV : List Nat → Option (V × List Nat)) (serV : V → List Nat) (wfV : V → Prop)
    (hV : ∀ (a : V) (r : List Nat), wfV a → deV (serV a ++ r) = some (a, r))
    (l : Leaf V) (rest : List Nat) (h : wfLeaf wfV l) :
    deLeaf deV (serLeaf serV l ++ rest) = some (l, rest) := by
  obtain ⟨h1, h2, h3⟩ := h
  simp only [serLeaf, List.append_assoc, deLeaf, deU64_serU64, hV, h1, h2, h3]
theorem deCritbitTree_serCritbitTree (t : CritbitTree) (rest : List Nat)
    (h : wfCritbitTree t) :
    deCritbitTree (serCritbitTree t ++ rest) = some (t, rest) := by
  obtain ⟨h1, h2, h3, h4, h5, h6, h7⟩ := h
  simp only [serCritbitTree, List.append_assoc, deCritbitTree, deU64_serU64,
    deTable_serTable, h1, h2, h3, h4, h5, h6, h7]
theorem dePool_serPool (p : Pool) (rest : List Nat) (h : wfPool p) :
    dePool (serPool p ++ rest) = some (p, rest) := by
  obtain ⟨⟨h1, _⟩, h2, h3, h4, h5, h6, h7, h8, h9, h10⟩ := h
  simp only [serPool, List.append_assoc, dePool, deAddress_serAddress,
    deCritbitTree_serCritbitTree, deU64_serU64, deTable_serTable,
    h1, h2, h3, h4, h5, h6, h7, h8, h9, h10]
theorem dePoolCreated_serPoolCreated (p : PoolCreated) (rest : List Nat)
    (h : wfPoolCreated p) :
    dePoolCreated (serPoolCreated p ++ rest) = some (p, rest) := by
  obtain ⟨⟨h1, _⟩, _, _⟩ := h
  simp only [serPoolCreated, List.append_assoc, dePoolCreated, deAddress_serAddress,
    deStr_serStr, h1]

/-! ## Chunking lemmas -/

theorem chunks_nil (size : Nat) : chunks ([] : List α) size = [] := by
  have h0 : (size - 1) / size = 0 := by
    rcases Nat.eq_zero_or_pos size with h | h
    · subst h; simp
    · exact Nat.div_eq_of_lt (by omega)
  simp [chunks, h0]

theorem chunks_cons (l : List α) (size : Nat) (hs : 0 < size) (hl : l ≠ []) :
    chunks l size = l.take size :: chunks (l.drop size) size := by
  have hn : 0 < l.length := List.length_pos.mpr hl
  have hcount : (l.length + size - 1) / size = (l.length - 1) / size + 1 := by
    have h2 : l.length + size - 1 = (l.length - 1) + size := by omega
    rw [h2, Nat.add_div_right _ hs]
  have hcount2 : ((l.drop size).length + size - 1) / size = (l.length - 1) / size := by
    rw [List.length_drop]
    rcases Nat.lt_or_ge l.length (size + 1) with h | h
    · have h0 : l.length - size = 0 := by omega
      rw [h0, Nat.zero_add, Nat.div_eq_of_lt (by omega), Nat.div_eq_of_lt (by omega)]
    · have h1 : l.length - size + size - 1 = l.length - 1 := by omega
      rw [h1]
  rw [chunks, chunks, hcount, hcount2, List.range_succ_eq_map, List.map_cons]
  congr 1
  · simp
  · rw [List.map_map]
    apply List.map_congr_left
    intro i _
    simp only [Function.comp_apply]
    rw [List.drop_drop]
    have h3 : i.succ * size = size + i * size := by
      rw [Nat.succ_mul, Nat.add_comm]
    rw [h3]

theorem chunks_flatten (size : Nat) (hs : 0 < size) :
    ∀ l : List α, (chunks l size).flatten = l := by
  have main : ∀ (n : Nat) (l : List α), l.length = n → (chunks l size).flatten = l := by
    intro n
    induction n using Nat.strong_induction_on with
    | _ n ih =>
      intro l hl
      rcases eq_or_ne l [] with rfl | hne
      · simp [chunks_nil]
      · have hn : 0 < l.length := List.length_pos.mpr hne
        rw [chunks_cons l size hs hne, List.flatten_cons]
        rw [ih (l.drop size).length (by rw [List.length_drop]; omega) (l.drop size) rfl]
        exact List.take_append_drop size l
  intro l
  exact main l.length l rfl

theorem chunks_mem_size (l : List α) (size : Nat) (hs : 0 < size) :
    ∀ c ∈ chunks l size, c.length ≤ size ∧ c ≠ [] := by
  intro c hc
  rw [chunks, List.mem_map] at hc
  obtain ⟨i, hi, rfl⟩ := hc
  rw [List.mem_range] at hi
  have hix : i * size < l.length := by
    rcases Nat.eq_zero_or_pos l.length with h0 | h0
    · rw [h0, Nat.zero_add, Nat.div_eq_of_lt (by omega)] at hi; omega
    · have h1 : (l.length + size - 1) / size = (l.length - 1) / size + 1 := by
        have h2 : l.length + size - 1 = (l.length - 1) + size := by omega
        rw [h2, Nat.add_div_right _ hs]
      rw [h1] at hi
      have h3 : i ≤ (l.length - 1) / size := by omega
      have h4 : i * size ≤ ((l.length - 1) / size) * size := Nat.mul_le_mul_right _ h3
      have h5 : ((l.length - 1) / size) * size ≤ l.length - 1 := Nat.div_mul_le_self _ _
      omega
  constructor
  · rw [List.length_take]; omega
  · rw [ne_eq, ← List.length_eq_zero, List.length_take, List.length_drop]; omega

/-! ## Except traversal lemmas -/

theorem exceptMapList_ok_of_forall (f : α → Except ε β) (g : α → β) :
    ∀ l : List α, (∀ x ∈ l, f x = Except.ok (g x)) →
      exceptMapList f l = Except.ok (l.map g) := by
  intro l
  induction l with
  | nil => intro _; rfl
  | cons x xs ih =>
    intro h
    rw [exceptMapList, h x (by simp), ih (fun y hy => h y (by simp [hy]))]
    rfl

theorem exceptMapList_error_mem (f : α → Except ε β) :
    ∀ (l : List α) (e : ε), exceptMapList f l = Except.error e →
      ∃ x ∈ l, f x = Except.error e := by
  intro l
  induction l with
  | nil =>
    intro e h
    exact absurd h (by rw [exceptMapList]; simp)
  | cons x xs ih =>
    intro e h
    rw [exceptMapList] at h
    rcases hx : f x with e' | y <;> rw [hx] at h
    · have h2 : (Except.error e' : Except ε (List β)) = Except.error e := h
      injection h2 with he
      subst he
      exact ⟨x, by simp, hx⟩
    · rcases hxs : exceptMapList f xs with e2 | ys <;> rw [hxs] at h
      · have h2 : (Except.error e2 : Except ε (List β)) = Except.error e := h
        injection h2 with he
        subst he
        obtain ⟨z, hz, hfz⟩ := ih e2 hxs
        exact ⟨z, by simp [hz], hfz⟩
      · have h2 : (Except.ok (y :: ys) : Except ε (List β)) = Except.error e := h
        exact absurd h2 (by simp)

/-! ## Response processing lemmas -/

theorem processOrderResponse_eq_ok (resp : ObjectResponse) (h : respDecodes resp = true) :
    processOrderResponse resp = Except.ok (respOrder resp) := by
  cases resp with
  | error => rfl
  | nonMoveObject b => rfl
  | moveObject b =>
    simp only [respDecodes] at h
    rcases hd : deField deU64 (deNode deOrder) b with _ | ⟨f, r⟩
    · rw [hd] at h; simp at h
    · simp [processOrderResponse, respOrder, hd]

theorem processOrderResponse_ne_invalid (resp : ObjectResponse) :
    processOrderResponse resp ≠ Except.error RunErr.invalidPoolData := by
  cases resp with
  | error => simp [processOrderResponse]
  | nonMoveObject b => simp [processOrderResponse]
  | moveObject b =>
    rw [processOrderResponse]
    rcases hd : deField deU64 (deNode deOrder) b with _ | ⟨f, r⟩ <;> simp [hd]

theorem processTickResponse_ne_invalid (resp : ObjectResponse) :
    processTickResponse resp ≠ Except.error RunErr.invalidPoolData := by
  cases resp with
  | error => simp [processTickResponse]
  | nonMoveObject b => simp [processTickResponse]
  | moveObject b =>
    rw [processTickResponse]
    rcases hd : deField deU64 (deLeaf deTickLevel) b with _ | ⟨f, r⟩ <;> simp [hd]

theorem getOrders_ne_invalid (env : Env) (ids : List (Option String)) :
    getOrders env ids ≠ Except.error RunErr.invalidPoolData := by
  rw [getOrders]
  split
  · rename_i e hm
    intro hcontra
    have h2 : (Except.error e : Except RunErr (List Order)) =
        Except.error RunErr.invalidPoolData := hcontra
    injection h2 with he
    subst he
    obtain ⟨chunk, _, hch⟩ := exceptMapList_error_mem _ _ _ hm
    obtain ⟨resp, _, hre⟩ := exceptMapList_error_mem _ _ _ hch
    exact processOrderResponse_ne_invalid resp hre
  · rename_i res hm
    intro hcontra
    have h2 : (Except.ok (res.flatten.filterMap id) : Except RunErr (List Order)) =
        Except.error RunErr.invalidPoolData := hcontra
    exact absurd h2 (by simp)

theorem reconstructPoolOrders_ne_invalid (env : Env) (pool : Pool) :
    reconstructPoolOrders env pool ≠ Except.error RunErr.invalidPoolData := by
  simp only [reconstructPoolOrders]
  split
  · rename_i e hm
    intro hcontra
    have h2 : (Except.error e : Except RunErr (List Order)) =
        Except.error RunErr.invalidPoolData := hcontra
    injection h2 with he
    subst he
    obtain ⟨chunk, _, hch⟩ := exceptMapList_error_mem _ _ _ hm
    obtain ⟨resp, _, hre⟩ := exceptMapList_error_mem _ _ _ hch
    exact processTickResponse_ne_invalid resp hre
  · rename_i res hm
    exact getOrders_ne_invalid env _

/-! ## Claim theorems -/

/-- C2: the expiry filter is a pure predicate over a decoded `Order` that
classifies the order as expired if and only if its `expire_timestamp` is at
most the current time; an order whose `expire_timestamp` equals `now` is
expired and one whose `expire_timestamp` equals `now + 1` is not. -/
theorem isExpired_iff_le_now (order : Order) (now : Nat) :
    (isExpired order now = true ↔ order.expire_timestamp ≤ now) ∧
    isExpired { order with expire_timestamp := now } now = true ∧
    isExpired { order with expire_timestamp := now + 1 } now = false := by
  refine ⟨?_, ?_, ?_⟩
  · simp [isExpired]
  · simp [isExpired]
  · simp [isExpired]

/-- C3: the rebate returned by `createCleanUpTransaction` equals
`storageRebate - storageCost - computationCost` of the dry-run cost
summary, as exact integer arithmetic; in particular a summary of
`(300, 100, 50)` yields a rebate of `150`. -/
theorem createCleanUpTransaction_rebate (env : Env)
    (poolOrders : List (PoolCreated × List Order)) :
    (createCleanUpTransaction env poolOrders).1 =
      (env.devInspect (createCleanUpTransaction env poolOrders).2).storageRebate -
        (env.devInspect (createCleanUpTransaction env poolOrders).2).storageCost -
        (env.devInspect (createCleanUpTransaction env poolOrders).2).computationCost ∧
    (env.devInspect (createCleanUpTransaction env poolOrders).2 = ⟨300, 100, 50⟩ →
      (createCleanUpTransaction env poolOrders).1 = 150) := by
  constructor
  · rfl
  · intro h
    have h1 : (createCleanUpTransaction env poolOrders).1 =
        (env.devInspect (createCleanUpTransaction env poolOrders).2).storageRebate -
          (env.devInspect (createCleanUpTransaction env poolOrders).2).storageCost -
          (env.devInspect (createCleanUpTransaction env poolOrders).2).computationCost := rfl
    rw [h1, h]
    decide

/-- Witness for C3 at a concrete environment whose dry-run reports the
cost summary `(300, 100, 50)`. -/
theorem createCleanUpTransaction_rebate_witness :
    (createCleanUpTransaction envRebate []).1 = 150 :=
  (createCleanUpTransaction_rebate envRebate []).2 rfl

/-- C9: for every schema registered in the registry (Order, Table,
Field, TickLevel, LinkedTable, Node, Leaf, CritbitTree, Pool,
PoolCreated) and every in-range record of that schema, decoding the
encoding of the record reproduces the record exactly, leaving any
trailing bytes unconsumed; the generic schemas round-trip for every pair
of round-tripping leaf codecs bound to their type parameters. -/
theorem bcs_roundtrip_all_schemas :
    (∀ (o : Order) (rest : List Nat), wfOrder o →
      deOrder (serOrder o ++ rest) = some (o, rest)) ∧
    (∀ (t : Table) (rest : List Nat), wfTable t →
      deTable (serTable t ++ rest) = some (t, rest)) ∧
    (∀ (K V : Type) (deK : List Nat → Option (K × List Nat)) (serK : K → List Nat)
      (wfK : K → Prop) (deV : List Nat → Option (V × List Nat)) (serV : V → List Nat)
      (wfV : V → Prop),
      (∀ (a : K) (r : List Nat), wfK a → deK (serK a ++ r) = some (a, r)) →
      (∀ (a : V) (r : List Nat), wfV a → deV (serV a ++ r) = some (a, r)) →
      ∀ (f : BcsField K V) (rest : List Nat), wfField wfK wfV f →
        deField deK deV (serField serK serV f ++ rest) = some (f, rest)) ∧
    (∀ (t : TickLevel) (rest : List Nat), wfTickLevel t →
      deTickLevel (serTickLevel t ++ rest) = some (t, rest)) ∧
    (∀ (t : LinkedTable) (rest : List Nat), wfLinkedTable t →
      deLinkedTable (serLinkedTable t ++ rest) = some (t, rest)) ∧
    (∀ (V : Type) (deV : List Nat → Option (V × List Nat)) (serV : V → List Nat)
      (wfV : V → Prop),
      (∀ (a : V) (r : List Nat), wfV a → deV (serV a ++ r) = some (a, r)) →
      ∀ (n : Node V) (rest : List Nat), wfNode wfV n →
        deNode deV (serNode serV n ++ rest) = some (n, rest)) ∧
    (∀ (V : Type) (deV : List Nat → Option (V × List Nat)) (serV : V → List Nat)
      (wfV : V → Prop),
      (∀ (a : V) (r : List Nat), wfV a → deV (serV a ++ r) = some (a, r)) →
      ∀ (l : Leaf V) (rest : List Nat), wfLeaf wfV l →
        deLeaf deV (serLeaf serV l ++ rest) = some (l, rest)) ∧
    (∀ (t : CritbitTree) (rest : List Nat), wfCritbitTree t →
      deCritbitTree (serCritbitTree t ++ rest) = some (t, rest)) ∧
    (∀ (p : Pool) (rest : List Nat), wfPool p →
      dePool (serPool p ++ rest) = some (p, rest)) ∧
    (∀ (p : PoolCreated) (rest : List Nat), wfPoolCreated p →
      dePoolCreated (serPoolCreated p ++ rest) = some (p, rest)) :=
  ⟨deOrder_serOrder, deTable_serTable,
    fun _K _V deK serK wfK deV serV wfV hK hV =>
      deField_serField deK serK wfK deV serV wfV hK hV,
    deTickLevel_serTickLevel, deLinkedTable_serLinkedTable,
    fun _V deV serV wfV hV => deNode_serNode deV serV wfV hV,
    fun _V deV serV wfV hV => deLeaf_serLeaf deV serV wfV hV,
    deCritbitTree_serCritbitTree, dePool_serPool, dePoolCreated_serPoolCreated⟩

/-- Witness for C9: the round trip evaluated at a concrete in-range
order record. -/
theorem bcs_roundtrip_all_schemas_witness :
    wfOrder oSample ∧ deOrder (serOrder oSample ++ []) = some (oSample, []) :=
  ⟨by decide, bcs_roundtrip_all_schemas.1 oSample [] (by decide)⟩

/-- C1 counterexample: a pair whose expired-order list is empty still
contributes an instruction to the batch — on the input consisting of one
pool with no expired orders, the built batch is non-empty (it holds
exactly one instruction), contradicting the claim that such a pair
contributes no instruction. -/
theorem createCleanUpTransaction_empty_pair_counterexample :
    (createCleanUpTransaction envEmpty [(pcSample, [])]).2 ≠ [] ∧
    (createCleanUpTransaction envEmpty [(pcSample, [])]).2.length = 1 := by
  constructor
  · decide
  · decide

/-- C1 (amended): `createCleanUpTransaction` adds exactly one cleanup
instruction to the batch for every (pool, expired-order-list) pair,
whether or not the expired-order list is empty (an empty pair yields an
instruction with empty id and owner vectors); each emitted instruction
carries the pool's id, the clock object `0x6`, the list of expired order
ids, the parallel list of their owners, and the pool's base/quote asset
type parameters unchanged from discovery. -/
theorem createCleanUpTransaction_instr_per_pair (env : Env)
    (poolOrders : List (PoolCreated × List Order)) :
    (createCleanUpTransaction env poolOrders).2.length = poolOrders.length ∧
    ∀ (i : Nat) (h : i < poolOrders.length),
      (createCleanUpTransaction env poolOrders).2[i]? =
        some ⟨"0xdee9::clob_v2::clean_up_expired_orders",
          poolOrders[i].1.pool_id, "0x6",
          poolOrders[i].2.map Order.order_id,
          poolOrders[i].2.map Order.owner,
          [poolOrders[i].1.base_asset, poolOrders[i].1.quote_asset]⟩ := by
  constructor
  · simp [createCleanUpTransaction]
  · intro i h
    simp [createCleanUpTransaction, List.getElem?_map, List.getElem?_eq_getElem h]

/-- Witness for C1 at one concrete pair holding one expired order. -/
theorem createCleanUpTransaction_instr_per_pair_witness :
    (createCleanUpTransaction envEmpty [(pcSample, [oSample])]).2.length = 1 ∧
    (createCleanUpTransaction envEmpty [(pcSample, [oSample])]).2[0]? =
      some ⟨"0xdee9::clob_v2::clean_up_expired_orders", pcSample.pool_id, "0x6",
        [1], [List.replicate 32 7], [pcSample.base_asset, pcSample.quote_asset]⟩ := by
  refine ⟨(createCleanUpTransaction_instr_per_pair envEmpty [(pcSample, [oSample])]).1, ?_⟩
  rw [(createCleanUpTransaction_instr_per_pair envEmpty [(pcSample, [oSample])]).2 0
    (by decide)]
  decide

/-- C6: one call of the cursor-pagination loop returns the concatenation
of all page batches in response order, requesting the follow-up page
exactly while the current page's more-pages flag is set: against a finite
source whose non-final pages all carry the flag and whose final page does
not, it returns every item in order and issues one request per page —
in particular a flag-less first page (even an empty one) terminates after
the single initial request. -/
theorem fetchAllPages_exhausts {α : Type} (ps : List (Page α)) (last : Page α)
    (hflags : ∀ p ∈ ps, p.hasNextPage = true) (hlast : last.hasNextPage = false) :
    fetchAllPages (ps ++ [last]) = ((ps ++ [last]).map Page.data).flatten ∧
    fetchRequests (ps ++ [last]) = ps.length + 1 := by
  induction ps with
  | nil => simp [fetchAllPages, fetchRequests, hlast]
  | cons p ps ih =>
    have hp : p.hasNextPage = true := hflags p (by simp)
    obtain ⟨ih1, ih2⟩ := ih (fun q hq => hflags q (by simp [hq]))
    constructor
    · simp [fetchAllPages, hp, ih1]
    · simp [fetchRequests, hp, ih2]
      omega

/-- Witness for C6: a stub source with pages of sizes 3, 5, 0, 2 yields
its ten items in original order through four requests. -/
theorem fetchAllPages_exhausts_witness :
    fetchAllPages [(⟨[0, 1, 2], true⟩ : Page Nat), ⟨[3, 4, 5, 6, 7], true⟩,
        ⟨[], true⟩, ⟨[8, 9], false⟩] = [0, 1, 2, 3, 4, 5, 6, 7, 8, 9] ∧
    fetchRequests [(⟨[0, 1, 2], true⟩ : Page Nat), ⟨[3, 4, 5, 6, 7], true⟩,
        ⟨[], true⟩, ⟨[8, 9], false⟩] = 4 := by
  have h := fetchAllPages_exhausts
    [(⟨[0, 1, 2], true⟩ : Page Nat), ⟨[3, 4, 5, 6, 7], true⟩, ⟨[], true⟩]
    ⟨[8, 9], false⟩ (by decide) rfl
  exact ⟨h.1.trans (by decide), h.2.trans (by decide)⟩

set_option maxRecDepth 10000 in
/-- C7: the `chunks` helper used by batch resolution partitions the input
id list into consecutive chunks whose concatenation is the input, each
chunk non-empty and at most 50 ids long; `getOrders` issues one
`multiGetObjects` call per chunk, and 130 ids produce exactly the chunk
sizes 50, 50, 30. -/
theorem chunks_partition (ids : List (Option String)) :
    (chunks ids 50).flatten = ids ∧
    (∀ c ∈ chunks ids 50, c.length ≤ 50 ∧ c ≠ []) ∧
    (chunks (List.range 130) 50).map List.length = [50, 50, 30] := by
  refine ⟨chunks_flatten 50 (by omega) ids, chunks_mem_size ids 50 (by omega), ?_⟩
  decide

/-- Witness for C7 at a concrete one-id list and its single chunk. -/
theorem chunks_partition_witness :
    (chunks [some "a"] 50).flatten = [some "a"] ∧
    ([some "a"] : List (Option String)).length ≤ 50 :=
  ⟨(chunks_partition [some "a"]).1,
    ((chunks_partition [some "a"]).2.1 [some "a"] (by decide)).1⟩

/-- C10: every entry returned by `getAllDFPages` has a defined
`objectId` — entries with an undefined id are filtered out after the
page loop, so downstream id collection never receives an undefined id. -/
theorem getAllDFPages_objectId_defined (env : Env) (parentId : List Nat) :
    ∀ entry ∈ getAllDFPages env parentId, entry.objectId.isSome = true := by
  intro entry he
  rw [getAllDFPages, List.mem_filter] at he
  exact he.2

/-- Witness for C10: a concrete environment whose single dynamic-field
page holds one entry with an id and one without. -/
theorem getAllDFPages_objectId_defined_witness :
    (⟨some "x"⟩ : DFEntry) ∈ getAllDFPages envDF [] ∧
    (DFEntry.objectId ⟨some "x"⟩).isSome = true :=
  ⟨by decide, getAllDFPages_objectId_defined envDF [] ⟨some "x"⟩ (by decide)⟩

/-- C4: when every looked-up payload decodes, `getOrders` returns exactly
one decoded value per input id whose lookup succeeds as a move object,
and an id whose lookup reports an error is silently omitted from the
output without failing the containing chunk or the batch — the result is
the `Except.ok` of the per-id contributions in input order with the
absent ones dropped. -/
theorem getOrders_omits_missing (env : Env) (ids : List (Option String))
    (hdec : ∀ i ∈ ids, respDecodes (env.getObj i) = true) :
    getOrders env ids =
      Except.ok (ids.filterMap (fun i => respOrder (env.getObj i))) := by
  have hchunk : ∀ chunk ∈ chunks ids 50,
      exceptMapList processOrderResponse (multiGetObjects env chunk) =
        Except.ok (chunk.map (fun i => respOrder (env.getObj i))) := by
    intro chunk hc
    rw [multiGetObjects]
    have h1 : exceptMapList processOrderResponse (chunk.map env.getObj) =
        Except.ok ((chunk.map env.getObj).map respOrder) := by
      apply exceptMapList_ok_of_forall
      intro resp hresp
      rw [List.mem_map] at hresp
      obtain ⟨i, hi, rfl⟩ := hresp
      have hmem : i ∈ ids := by
        rw [← chunks_flatten 50 (by omega) ids]
        exact List.mem_flatten_of_mem hc hi
      exact processOrderResponse_eq_ok _ (hdec i hmem)
    rw [h1, List.map_map]
    rfl
  rw [getOrders, exceptMapList_ok_of_forall _ _ (chunks ids 50) hchunk]
  have h2 : ((chunks ids 50).map
        (fun chunk => chunk.map (fun i => respOrder (env.getObj i)))).flatten =
      ids.map (fun i => respOrder (env.getObj i)) := by
    rw [← List.map_flatten, chunks_flatten 50 (by omega)]
  show Except.ok ((((chunks ids 50).map
      (fun chunk => chunk.map (fun i => respOrder (env.getObj i)))).flatten).filterMap id) =
    Except.ok (ids.filterMap (fun i => respOrder (env.getObj i)))
  rw [h2, List.filterMap_map, Function.id_comp]

set_option maxRecDepth 100000 in
/-- Witness for C4: resolving ids a, b, c where b is deleted yields the
decoded orders of exactly a and c. -/
theorem getOrders_omits_missing_witness :
    getOrders envOrders [some "a", some "b", some "c"] =
      Except.ok [oSample, oSample2] := by
  rw [getOrders_omits_missing envOrders [some "a", some "b", some "c"] (by decide)]
  decide

/-- C5: `retrieveExpiredOrders` fails with the `Invalid pool data type`
error exactly when a pool payload was fetched and its data type is not
the move-object variant (a not-found response throws a TypeError before
that check is reached, a distinct failure); when the payload is the
move-object variant and decodes as a pool, the function applies the
expiry filter to the pool's reconstructed order set, so the
invalid-pool-data error is never raised there. -/
theorem retrieveExpiredOrders_invalid_iff (env : Env) (poolId : List Nat) :
    (retrieveExpiredOrders env poolId = Except.error RunErr.invalidPoolData ↔
      ∃ bcsBytes, env.getObject poolId = ObjectResponse.nonMoveObject bcsBytes) ∧
    (∀ bcsBytes pool r, env.getObject poolId = ObjectResponse.moveObject bcsBytes →
      dePool bcsBytes = some (pool, r) →
      retrieveExpiredOrders env poolId =
        Except.map (fun orders => orders.filter (fun order => isExpired order env.now))
          (reconstructPoolOrders env pool)) := by
  constructor
  · constructor
    · intro h
      rcases hobj : env.getObject poolId with _ | bs | bs
      · rw [retrieveExpiredOrders] at h
        simp only [hobj] at h
        simp at h
      · rw [retrieveExpiredOrders] at h
        simp only [hobj] at h
        rcases hd : dePool bs with _ | ⟨pool, r⟩
        · simp only [hd] at h
          simp at h
        · simp only [hd] at h
          rcases hr : reconstructPoolOrders env pool with e | orders
          · rw [hr] at h
            have h2 : (Except.error e : Except RunErr (List Order)) =
                Except.error RunErr.invalidPoolData := h
            injection h2 with he
            exact absurd (by rw [hr, he]) (reconstructPoolOrders_ne_invalid env pool)
          · rw [hr] at h
            have h2 : (Except.ok (orders.filter (fun order => isExpired order env.now)) :
                Except RunErr (List Order)) = Except.error RunErr.invalidPoolData := h
            exact absurd h2 (by simp)
      · exact ⟨bs, rfl⟩
    · intro h
      obtain ⟨bs, hobj⟩ := h
      simp [retrieveExpiredOrders, hobj]
  · intro bs pool r hb hd
    rw [retrieveExpiredOrders]
    simp only [hb, hd]
    rcases hr : reconstructPoolOrders env pool with e | orders <;>
      simp [hr, Except.map]

/-- Witness for C5: against an environment serving the sample pool as a
move object with empty sides, the call returns the empty expired set
rather than the invalid-pool error. -/
theorem retrieveExpiredOrders_invalid_iff_witness :
    retrieveExpiredOrders envPool (List.replicate 32 9) = Except.ok [] := by
  have h := (retrieveExpiredOrders_invalid_iff envPool (List.replicate 32 9)).2
    (serPool poolSample) poolSample [] rfl
    (by rw [← List.append_nil (serPool poolSample)]
        exact dePool_serPool poolSample [] (by decide))
  rw [h]
  decide
